import Mathlib

set_option maxRecDepth 4000

/-!
Verification development for the safari-cookie-json binary-cookies decoder
(src/safari-cookie-json.c).  The C program memory-maps an Apple
"binarycookies" file and, in `printCookiesFromMmap`, walks
file header -> page-size table -> pages -> cookies, streaming a JSON
rendition to stdout and diagnostics to stderr, returning a process exit
code.  The shallow embedding below models the mapped buffer as a list of
bytes, pointers as absolute byte offsets from the start of the buffer, and
the two output streams as strings carried in the result.  Machine integers
are modelled as `Nat` with explicit `% 2 ^ 32` where the C code can wrap
(the running checksum); the 32- and 64-bit loads cannot overflow and need
no reduction.  Doubles are carried as their raw little-endian 64-bit
patterns, exactly as the C code obtains them before its aliasing cast.
-/

/-! ### Exit codes (the C enum, in declaration order) -/

def EXIT_CODE_OK : Nat := 0
def EXIT_CODE_BAD_INVOCATION : Nat := 1
def EXIT_CODE_BAD_OPEN : Nat := 2
def EXIT_CODE_BAD_CLOSE : Nat := 3
def EXIT_CODE_BAD_STAT : Nat := 4
def EXIT_CODE_BAD_MMAP : Nat := 5
def EXIT_CODE_BAD_MUNMAP : Nat := 6
def EXIT_CODE_BAD_EOF : Nat := 7
def EXIT_CODE_BAD_MAGIC : Nat := 8
def EXIT_CODE_BAD_PARSE : Nat := 9

/-! ### Byte reads

`byteAt` models reading one `uint8_t` from the mapped buffer; indices past
the end read as 0 (the C code never reads past the end on the paths the
claims exercise, and the `% 256` mirrors the `uint8_t` truncation). -/

def byteAt (buf : List Nat) (i : Nat) : Nat := buf.getD i 0 % 256

/-- Model of `read32Hi` (big-endian u32 load at absolute offset `i`). -/
def read32Hi (buf : List Nat) (i : Nat) : Nat :=
  ((byteAt buf i * 256 + byteAt buf (i + 1)) * 256 + byteAt buf (i + 2)) * 256
    + byteAt buf (i + 3)

/-- Model of `read32Lo` (little-endian u32 load at absolute offset `i`). -/
def read32Lo (buf : List Nat) (i : Nat) : Nat :=
  byteAt buf i + byteAt buf (i + 1) * 256 + byteAt buf (i + 2) * 65536
    + byteAt buf (i + 3) * 16777216

/-- Model of `read64Lo` (little-endian u64 load at absolute offset `i`);
`readDouble` in the C code is this load followed by an aliasing cast, so
the double is carried as this raw bit pattern. -/
def read64Lo (buf : List Nat) (i : Nat) : Nat :=
  byteAt buf i + byteAt buf (i + 1) * 256 + byteAt buf (i + 2) * 65536
    + byteAt buf (i + 3) * 16777216 + byteAt buf (i + 4) * 4294967296
    + byteAt buf (i + 5) * 1099511627776 + byteAt buf (i + 6) * 281474976710656
    + byteAt buf (i + 7) * 72057594037927936

/-! ### The four magic constants and their memcmp checks -/

def magicOk (buf : List Nat) : Bool :=
  (byteAt buf 0 == 99) && (byteAt buf 1 == 111) && (byteAt buf 2 == 111)
    && (byteAt buf 3 == 107)

def tagOk (buf : List Nat) (pageBase : Nat) : Bool :=
  (byteAt buf pageBase == 0) && (byteAt buf (pageBase + 1) == 0)
    && (byteAt buf (pageBase + 2) == 1) && (byteAt buf (pageBase + 3) == 0)

def headerEndOk (buf : List Nat) (i : Nat) : Bool :=
  (byteAt buf i == 0) && (byteAt buf (i + 1) == 0) && (byteAt buf (i + 2) == 0)
    && (byteAt buf (i + 3) == 0)

def footerOk (buf : List Nat) (i : Nat) : Bool :=
  (byteAt buf i == 7) && (byteAt buf (i + 1) == 23) && (byteAt buf (i + 2) == 32)
    && (byteAt buf (i + 3) == 5)

/-! ### NUL-terminated string scanning

The C code scans a string field byte by byte until the first NUL
(`emitJsonString`'s cursor loop).  `cStringGo` is that scan with explicit
fuel; the fuel `buf.length + 1 - start` is always enough because every
index at or past `buf.length` reads as 0. -/

def cStringGo (buf : List Nat) : Nat → Nat → List Nat
  | 0, _ => []
  | fuel + 1, i => if byteAt buf i = 0 then [] else byteAt buf i :: cStringGo buf fuel (i + 1)

def cString (buf : List Nat) (start : Nat) : List Nat :=
  cStringGo buf (buf.length + 1 - start) start

/-- The absolute indices the scan starting at `start` reads: every byte of
the string and the terminating NUL after it. -/
def scanReads (buf : List Nat) (start : Nat) : List Nat :=
  (List.range ((cString buf start).length + 1)).map (fun k => start + k)

/-- The index the cookie NUL-terminator check reads: the C code tests
`*(cookieEnd - 1)` where `cookieEnd = cookieBase + cookieSize`. -/
def nulCheckIndex (cookieBase cookieSize : Nat) : Nat := cookieBase + cookieSize - 1

/-! ### JSON emission (the emitJson family) -/

def emitJsonBeginArray : String := "["
def emitJsonBeginObject : String := "\x7b"
def emitJsonEndArray : String := "]"
def emitJsonEndObject : String := "\x7d"
def emitJsonNameSeparator : String := ":"
def emitJsonValueSeparator : String := ","

def hexDigit (n : Nat) : String :=
  String.singleton (Char.ofNat (if n < 10 then 48 + n else 55 + n))

/-- Model of `emitJsonCharEscapedPretty`. -/
def emitJsonCharEscapedPretty (c : Char) : String := "\\" ++ String.singleton c

/-- Model of `emitJsonCharEscapedUgly` (`printf "\\u%04X"`; only reached for
bytes below 0x20, so the leading digits are always "00"). -/
def emitJsonCharEscapedUgly (b : Nat) : String :=
  "\\u00" ++ hexDigit (b / 16) ++ hexDigit (b % 16)

/-- One step of `emitJsonString`'s switch over the current byte. -/
def emitJsonByte (b : Nat) : String :=
  if b = 34 then emitJsonCharEscapedPretty '"'
  else if b = 92 then emitJsonCharEscapedPretty '\\'
  else if b = 8 then emitJsonCharEscapedPretty 'b'
  else if b = 12 then emitJsonCharEscapedPretty 'f'
  else if b = 10 then emitJsonCharEscapedPretty 'n'
  else if b = 13 then emitJsonCharEscapedPretty 'r'
  else if b = 9 then emitJsonCharEscapedPretty 't'
  else if b < 32 then emitJsonCharEscapedUgly b
  else String.singleton (Char.ofNat b)

/-- Model of `emitJsonString`, applied to the bytes of a NUL-terminated C
string (the terminator excluded). -/
def emitJsonString (s : List Nat) : String :=
  "\"" ++ String.join (s.map emitJsonByte) ++ "\""

/-- Bytes of a C string literal (all literals in the program are ASCII). -/
def lit (s : String) : List Nat := s.data.map Char.toNat

/-- The C code passes the `uint32_t` fields to `printf "%d"` through an
`int` parameter, so values at or above 2^31 print as negatives. -/
def intOfU32 (n : Nat) : Int :=
  if n < 2147483648 then (n : Int) else (n : Int) - 4294967296

def emitJsonNumberInt (v : Int) : String := toString v

/-- Modelled from the spec: `emitJsonNumberDouble` is the C library's
`printf "%.17lg"` applied to the double whose little-endian bit pattern is
`bits`.  The library formatting itself is outside this repository; the spec
fixes that the all-zero pattern (the double 0.0) renders as "0", which is
the only pattern any claim evaluates, and other patterns are kept as an
abstract token of their bits. -/
def emitJsonNumberDouble (bits : Nat) : String :=
  if bits = 0 then "0" else "<double:" ++ toString bits ++ ">"

def emitJsonNamedValueInt (name : List Nat) (v : Int) : String :=
  emitJsonString name ++ emitJsonNameSeparator ++ emitJsonNumberInt v

def emitJsonSeparatedNamedValueInt (name : List Nat) (v : Int) : String :=
  emitJsonValueSeparator ++ emitJsonNamedValueInt name v

def emitJsonSeparatedNamedValueDouble (name : List Nat) (bits : Nat) : String :=
  emitJsonValueSeparator ++ emitJsonString name ++ emitJsonNameSeparator
    ++ emitJsonNumberDouble bits

/-- Model of `emitJsonOptionalSeparatedNamedValueString`: emits nothing at
all when `present` (the field's offset) is zero. -/
def emitJsonOptionalSeparatedNamedValueString (present : Nat) (name value : List Nat) :
    String :=
  if present ≠ 0 then
    emitJsonValueSeparator ++ emitJsonString name ++ emitJsonNameSeparator
      ++ emitJsonString value
  else ""

/-! ### Decode results -/

/-- A terminal decode failure: the exit code the C function returns, the
JSON text the failing subcomputation had already written to stdout, and the
stderr diagnostic. -/
structure DecodeFail where
  code : Nat
  out : String
  msg : String
deriving DecidableEq

/-- The observable outcome of `printCookiesFromMmap`: exit code, full
stdout text, and stderr text. -/
structure RunResult where
  exitCode : Nat
  stdout : String
  stderr : String
deriving DecidableEq

/-! ### The per-cookie step (lines 226-298 of the C file) -/

/-- The JSON object a validated cookie emits (lines 278-295), including the
fencepost separator.  The `hasPort` field at `cookieBase + 12` is read by
the C code but never used or emitted. -/
def cookieChunk (buf : List Nat) (cookieBase : Nat) (first : Bool) : String :=
  (if first then "" else emitJsonValueSeparator)
  ++ emitJsonBeginObject
  ++ emitJsonNamedValueInt (lit "version") (intOfU32 (read32Lo buf (cookieBase + 4)))
  ++ emitJsonSeparatedNamedValueInt (lit "flags") (intOfU32 (read32Lo buf (cookieBase + 8)))
  ++ emitJsonOptionalSeparatedNamedValueString (read32Lo buf (cookieBase + 16))
      (lit "domain") (cString buf (cookieBase + read32Lo buf (cookieBase + 16)))
  ++ emitJsonOptionalSeparatedNamedValueString (read32Lo buf (cookieBase + 20))
      (lit "name") (cString buf (cookieBase + read32Lo buf (cookieBase + 20)))
  ++ emitJsonOptionalSeparatedNamedValueString (read32Lo buf (cookieBase + 24))
      (lit "path") (cString buf (cookieBase + read32Lo buf (cookieBase + 24)))
  ++ emitJsonOptionalSeparatedNamedValueString (read32Lo buf (cookieBase + 28))
      (lit "value") (cString buf (cookieBase + read32Lo buf (cookieBase + 28)))
  ++ emitJsonOptionalSeparatedNamedValueString (read32Lo buf (cookieBase + 32))
      (lit "comment") (cString buf (cookieBase + read32Lo buf (cookieBase + 32)))
  ++ emitJsonOptionalSeparatedNamedValueString (read32Lo buf (cookieBase + 36))
      (lit "commentUrl") (cString buf (cookieBase + read32Lo buf (cookieBase + 36)))
  ++ emitJsonSeparatedNamedValueDouble (lit "expiry") (read64Lo buf (cookieBase + 40))
  ++ emitJsonSeparatedNamedValueDouble (lit "creation") (read64Lo buf (cookieBase + 48))
  ++ emitJsonEndObject

/-- One iteration of the cookie loop after `cookieBase` has been computed:
the header-presence check against the end of the file, the ten field loads,
the record-extent, NUL-terminator and per-field range checks, then
emission.  `read32Lo buf cookieBase` is `cookieSize`. -/
def decodeCookie (buf : List Nat) (len pageEnd cookieBase cookieIdx pageIdx : Nat)
    (first : Bool) : Except DecodeFail String :=
  if len < cookieBase + 56 then
    .error ⟨EXIT_CODE_BAD_PARSE, "",
      "Cookie " ++ toString cookieIdx ++ " in Page " ++ toString pageIdx
        ++ " too short for cookie header\n"⟩
  else if pageEnd < cookieBase + read32Lo buf cookieBase then
    .error ⟨EXIT_CODE_BAD_PARSE, "",
      "Cookie " ++ toString cookieIdx ++ " in Page " ++ toString pageIdx
        ++ " has end past end of page\n"⟩
  else if byteAt buf (nulCheckIndex cookieBase (read32Lo buf cookieBase)) ≠ 0 then
    .error ⟨EXIT_CODE_BAD_PARSE, "",
      "Cookie " ++ toString cookieIdx ++ " in Page " ++ toString pageIdx
        ++ " does not end with null terminated string\n"⟩
  else if cookieBase + read32Lo buf cookieBase < cookieBase + read32Lo buf (cookieBase + 16) then
    .error ⟨EXIT_CODE_BAD_PARSE, "",
      "Cookie " ++ toString cookieIdx ++ " in Page " ++ toString pageIdx
        ++ " domain out of range\n"⟩
  else if cookieBase + read32Lo buf cookieBase < cookieBase + read32Lo buf (cookieBase + 20) then
    .error ⟨EXIT_CODE_BAD_PARSE, "",
      "Cookie " ++ toString cookieIdx ++ " in Page " ++ toString pageIdx
        ++ " name out of range\n"⟩
  else if cookieBase + read32Lo buf cookieBase < cookieBase + read32Lo buf (cookieBase + 24) then
    .error ⟨EXIT_CODE_BAD_PARSE, "",
      "Cookie " ++ toString cookieIdx ++ " in Page " ++ toString pageIdx
        ++ " path out of range\n"⟩
  else if cookieBase + read32Lo buf cookieBase < cookieBase + read32Lo buf (cookieBase + 28) then
    .error ⟨EXIT_CODE_BAD_PARSE, "",
      "Cookie " ++ toString cookieIdx ++ " in Page " ++ toString pageIdx
        ++ " value out of range\n"⟩
  else if cookieBase + read32Lo buf cookieBase < cookieBase + read32Lo buf (cookieBase + 32) then
    .error ⟨EXIT_CODE_BAD_PARSE, "",
      "Cookie " ++ toString cookieIdx ++ " in Page " ++ toString pageIdx
        ++ " comment out of range\n"⟩
  else if cookieBase + read32Lo buf cookieBase < cookieBase + read32Lo buf (cookieBase + 36) then
    .error ⟨EXIT_CODE_BAD_PARSE, "",
      "Cookie " ++ toString cookieIdx ++ " in Page " ++ toString pageIdx
        ++ " commentUrl out of range\n"⟩
  else .ok (cookieChunk buf cookieBase first)

/-- The cookie loop of one page: `remaining` cookies left, the next
offset-table entry at absolute offset `offOff`.  Returns the emitted text
and the updated `first` flag. -/
def decodeCookies (buf : List Nat) (len pageEnd pageBase pageIdx : Nat) :
    Nat → Nat → Nat → Bool → Except DecodeFail (String × Bool)
  | 0, _, _, first => .ok ("", first)
  | remaining + 1, offOff, cookieIdx, first =>
    match decodeCookie buf len pageEnd (pageBase + read32Lo buf offOff) cookieIdx pageIdx first with
    | .error e => .error e
    | .ok chunk =>
      match decodeCookies buf len pageEnd pageBase pageIdx remaining (offOff + 4) (cookieIdx + 1) false with
      | .error e => .error ⟨e.code, chunk ++ e.out, e.msg⟩
      | .ok (rest, f) => .ok (chunk ++ rest, f)

/-- The page checksum loop (lines 303-306): step the cursor by 4, adding
the single byte under it each time, from `base` while below `stop`.  Fuel
`stop - base` always suffices since the cursor advances by 4 each step. -/
def laneSumGo (buf : List Nat) (stop : Nat) : Nat → Nat → Nat
  | 0, _ => 0
  | fuel + 1, base => if base < stop then byteAt buf base + laneSumGo buf stop fuel (base + 4) else 0

def laneSum (buf : List Nat) (base stop : Nat) : Nat :=
  laneSumGo buf stop (stop - base) base

/-- The page loop (lines 202-309): `remaining` pages left, the next
page-size entry at `sizeOff`, the current page starting at `pageBase`.
Returns the emitted text, the `first` flag, the running checksum (reduced
mod 2^32 as the `uint32_t` accumulator wraps), and the final cursor, which
is where the trailer starts. -/
def processPages (buf : List Nat) (len : Nat) :
    Nat → Nat → Nat → Nat → Bool → Nat → Except DecodeFail (String × Bool × Nat × Nat)
  | 0, _, pageBase, _, first, checkSum => .ok ("", first, checkSum, pageBase)
  | remaining + 1, sizeOff, pageBase, pageIdx, first, checkSum =>
    if len < pageBase + read32Hi buf sizeOff then
      .error ⟨EXIT_CODE_BAD_EOF, "", "File too short, incomplete page " ++ toString pageIdx ++ "\n"⟩
    else if read32Hi buf sizeOff < 8 then
      .error ⟨EXIT_CODE_BAD_PARSE, "",
        "Page " ++ toString pageIdx ++ " too short for page tag and cookie count\n"⟩
    else if tagOk buf pageBase = false then
      .error ⟨EXIT_CODE_BAD_MAGIC, "", "Bad page tag - is this a cookie file?\n"⟩
    else if pageBase + read32Hi buf sizeOff < pageBase + 8 + 4 * read32Lo buf (pageBase + 4) + 4 then
      .error ⟨EXIT_CODE_BAD_PARSE, "", "Page " ++ toString pageIdx ++ " too short for cookie offsets\n"⟩
    else if headerEndOk buf (pageBase + 8 + 4 * read32Lo buf (pageBase + 4)) = false then
      .error ⟨EXIT_CODE_BAD_MAGIC, "", "Bad page header end - is this a cookie file?\n"⟩
    else
      match decodeCookies buf len (pageBase + read32Hi buf sizeOff) pageBase pageIdx
          (read32Lo buf (pageBase + 4)) (pageBase + 8) 0 first with
      | .error e => .error e
      | .ok (out1, first1) =>
        match processPages buf len remaining (sizeOff + 4) (pageBase + read32Hi buf sizeOff)
            (pageIdx + 1)
            first1 ((checkSum + laneSum buf pageBase (pageBase + read32Hi buf sizeOff)) % 4294967296) with
        | .error e => .error ⟨e.code, out1 ++ e.out, e.msg⟩
        | .ok (rest, f, cs, pe) => .ok (out1 ++ rest, f, cs, pe)

/-- The trailer step (lines 310-337): checksum + footer + plist-size, with
`pagesEnd` the cursor after the last page and `outSoFar` the stdout text
already emitted. -/
def trailerStep (buf : List Nat) (len pagesEnd checkSum : Nat) (outSoFar : String) : RunResult :=
  if len < pagesEnd + 12 then
    ⟨EXIT_CODE_BAD_EOF, outSoFar, "File too short, for checksum, footer, and plist size\n"⟩
  else if read32Hi buf pagesEnd ≠ checkSum then
    ⟨EXIT_CODE_BAD_PARSE, outSoFar, "Bad file checksum\n"⟩
  else if footerOk buf (pagesEnd + 4) = false then
    ⟨EXIT_CODE_BAD_MAGIC, outSoFar, "Bad file footer - is this a cookie file?\n"⟩
  else if len ≠ pagesEnd + 12 + read32Hi buf (pagesEnd + 8) then
    ⟨EXIT_CODE_BAD_PARSE, outSoFar, "File length and plist data length mismatch\n"⟩
  else
    ⟨EXIT_CODE_OK, outSoFar ++ emitJsonEndArray ++ emitJsonEndObject, ""⟩

/-- Model of `printCookiesFromMmap`: `len` is the mapped length the C
function receives, `buf` the mapped bytes. -/
def printCookiesFromMmap (len : Nat) (buf : List Nat) : RunResult :=
  if len < 8 then
    ⟨EXIT_CODE_BAD_EOF, "", "File too short, when checking magic and page count\n"⟩
  else if magicOk buf = false then
    ⟨EXIT_CODE_BAD_MAGIC, "", "Bad magic - is this a cookie file?\n"⟩
  else if len < 8 + 4 * read32Hi buf 4 then
    ⟨EXIT_CODE_BAD_EOF, "", "File too short, when checking page sizes in header\n"⟩
  else
    match processPages buf len (read32Hi buf 4) 8 (8 + 4 * read32Hi buf 4) 0 true 0 with
    | .error e =>
      ⟨e.code,
        emitJsonBeginObject ++ emitJsonString (lit "cookies") ++ emitJsonNameSeparator
          ++ emitJsonBeginArray ++ e.out,
        e.msg⟩
    | .ok (out, _, checkSum, pagesEnd) =>
      trailerStep buf len pagesEnd checkSum
        (emitJsonBeginObject ++ emitJsonString (lit "cookies") ++ emitJsonNameSeparator
          ++ emitJsonBeginArray ++ out)

/-! ### Layout arithmetic derived from a buffer (for stating claims) -/

/-- Sum of `r` big-endian page sizes starting at `sizeOff`. -/
def sumPageSizes (buf : List Nat) : Nat → Nat → Nat
  | 0, _ => 0
  | r + 1, sizeOff => read32Hi buf sizeOff + sumPageSizes buf r (sizeOff + 4)

/-- Where the pages end (and the trailer begins): header + page-size table
+ all declared page sizes. -/
def pagesEndPos (buf : List Nat) : Nat :=
  8 + 4 * read32Hi buf 4 + sumPageSizes buf (read32Hi buf 4) 8

/-- Where the 4-byte file footer starts: after the trailer's checksum. -/
def footerPos (buf : List Nat) : Nat := pagesEndPos buf + 4

/-- The spec's checksum formula for the pages declared by the size table:
for each page, the bytes at offsets 0, 4, 8, ... within the page. -/
def pagesLaneSum (buf : List Nat) : Nat → Nat → Nat → Nat
  | 0, _, _ => 0
  | r + 1, sizeOff, pageBase =>
    (∑ k in Finset.range ((read32Hi buf sizeOff + 3) / 4), byteAt buf (pageBase + 4 * k))
      + pagesLaneSum buf r (sizeOff + 4) (pageBase + read32Hi buf sizeOff)

/-- Every cookie of one page has its whole 56-byte fixed header inside the
page. -/
def cookiesHeadersOk (buf : List Nat) (pageEnd pageBase : Nat) : Nat → Nat → Bool
  | 0, _ => true
  | r + 1, offOff =>
    decide (pageBase + read32Lo buf offOff + 56 ≤ pageEnd)
      && cookiesHeadersOk buf pageEnd pageBase r (offOff + 4)

/-- Every cookie of every page has its 56-byte fixed header inside its
page. -/
def pagesHeadersOk (buf : List Nat) : Nat → Nat → Nat → Bool
  | 0, _, _ => true
  | r + 1, sizeOff, pageBase =>
    cookiesHeadersOk buf (pageBase + read32Hi buf sizeOff) pageBase
        (read32Lo buf (pageBase + 4)) (pageBase + 8)
      && pagesHeadersOk buf r (sizeOff + 4) (pageBase + read32Hi buf sizeOff)

def headersContained (buf : List Nat) : Bool :=
  pagesHeadersOk buf (read32Hi buf 4) 8 (8 + 4 * read32Hi buf 4)

/-! ### Concrete input files -/

def le32 (n : Nat) : List Nat := [n % 256, n / 256 % 256, n / 65536 % 256, n / 16777216 % 256]
def be32 (n : Nat) : List Nat := [n / 16777216 % 256, n / 65536 % 256, n / 256 % 256, n % 256]
def zeros (n : Nat) : List Nat := List.replicate n 0
def magicBytes : List Nat := [99, 111, 111, 107]
def tagBytes : List Nat := [0, 0, 1, 0]
def footerBytes : List Nat := [7, 23, 32, 5]

/-- The spec's concrete scenario: one page, one cookie, domain "x.com",
name "a", value "b", version 1, everything else zero or absent.  Page
layout: tag, count 1, one offset-table entry 16, terminator, then the
66-byte record (56-byte header + "x.com\0" at offset 56, "a\0" at 62,
"b\0" at 64). -/
def f4page : List Nat :=
  tagBytes ++ le32 1 ++ le32 16 ++ zeros 4
    ++ le32 66 ++ le32 1 ++ zeros 4 ++ zeros 4
    ++ le32 56 ++ le32 62 ++ zeros 4 ++ le32 64 ++ zeros 4 ++ zeros 4
    ++ zeros 8 ++ zeros 8
    ++ [120, 46, 99, 111, 109, 0] ++ [97, 0] ++ [98, 0]

def F4 : List Nat :=
  magicBytes ++ be32 1 ++ be32 82 ++ f4page
    ++ be32 (laneSum (magicBytes ++ be32 1 ++ be32 82 ++ f4page) 12 94)
    ++ footerBytes ++ be32 0

/-- `F4` with one checksum byte corrupted. -/
def F4bad : List Nat := F4.set 95 1

/-- `F4` with the declared plist size changed to 1, making the trailing
length check fail structurally. -/
def F4plist : List Nat := F4.set 105 1

/-- A two-page file that decodes successfully although the single cookie of
page 0 has `recordSize` 34, so its 56-byte fixed header runs past the end
of page 0 and overlaps page 1's tag, cookie count and terminator: the
`commentUrl` offset field is read from page 1's bytes 2..5 = [1,0,0,0].
Page 0: tag, count 1, offset 16, terminator, 34-byte record (header
truncated by the record end; last record byte is the required NUL).
Page 1: tag, count 0, terminator. -/
def sPage0 : List Nat :=
  tagBytes ++ le32 1 ++ le32 16 ++ zeros 4
    ++ le32 34 ++ zeros 4 ++ zeros 4 ++ zeros 4
    ++ zeros 4 ++ zeros 4 ++ zeros 4 ++ zeros 4 ++ [0, 0]

def sPage1 : List Nat := tagBytes ++ le32 0 ++ zeros 4

def sBody : List Nat := magicBytes ++ be32 2 ++ be32 50 ++ be32 12 ++ sPage0 ++ sPage1

def S : List Nat :=
  sBody ++ be32 ((laneSum sBody 16 66 + laneSum sBody 66 78) % 4294967296)
    ++ footerBytes ++ be32 0

/-- `S` with byte 68 flipped: that byte is byte 2 of page 1's tag (value 1)
and simultaneously the low byte of the straddling cookie's `commentUrl`
offset field. -/
def Sflip : List Nat := S.set 68 255

/-- A standalone cookie region for the scan-bounds claim: `recordSize` 58,
`domain` offset 58 equal to the record size, record's last byte (57) is
NUL, and the bytes at 58..60 (at and past `cookieEnd`) are "BC\0". -/
def B1 : List Nat := le32 58 ++ zeros 12 ++ le32 58 ++ zeros 36 ++ [65, 0] ++ [66, 67, 0]

/-- A 12-byte file whose single declared page (size 100) is missing: the
decode fails only after the JSON array opening has been emitted. -/
def B3 : List Nat := magicBytes ++ be32 1 ++ be32 100

/-- A file whose page fits the buffer but whose cookie-offset entry (15)
places the cookie's 56-byte header past the end of the buffer. -/
def B9 : List Nat := magicBytes ++ be32 1 ++ be32 16 ++ tagBytes ++ le32 1 ++ le32 15 ++ zeros 4

/-- A file with a single cookie whose `recordSize` is 0: the 72-byte page
is the page header followed by 56 bytes of zeros read as the cookie header
(all offsets zero), and the NUL-terminator check reads the byte at
`cookieBase - 1 = 27`, the terminator's last byte. -/
def b10page : List Nat := tagBytes ++ le32 1 ++ le32 16 ++ zeros 4 ++ zeros 56

def b10body : List Nat := magicBytes ++ be32 1 ++ be32 72 ++ b10page

def B10 : List Nat := b10body ++ be32 (laneSum b10body 12 84) ++ footerBytes ++ be32 0

/-! ### Helper lemmas about byte reads under truncation and mutation -/

theorem getD_take (l : List Nat) : ∀ (m i : Nat), i < m → (l.take m).getD i 0 = l.getD i 0 := by
  induction l with
  | nil => intro m i _; simp
  | cons a t ih =>
    intro m i him
    cases m with
    | zero => omega
    | succ m' =>
      cases i with
      | zero => simp
      | succ i' => simpa using ih m' i' (by omega)

theorem getD_len_le (l : List Nat) : ∀ i, l.length ≤ i → l.getD i 0 = 0 := by
  induction l with
  | nil => intro i _; simp
  | cons a t ih =>
    intro i h
    cases i with
    | zero => simp at h
    | succ i' => simpa using ih i' (by simpa using h)

theorem getD_set_self (l : List Nat) : ∀ i v, i < l.length → (l.set i v).getD i 0 = v := by
  induction l with
  | nil => intro i v h; simp at h
  | cons a t ih =>
    intro i v h
    cases i with
    | zero => simp
    | succ i' => simpa using ih i' v (by simpa using h)

theorem getD_set_ne (l : List Nat) : ∀ i j v, i ≠ j → (l.set i v).getD j 0 = l.getD j 0 := by
  induction l with
  | nil => intro i j v _; simp
  | cons a t ih =>
    intro i j v hij
    cases i with
    | zero =>
      cases j with
      | zero => exact absurd rfl hij
      | succ j' => simp
    | succ i' =>
      cases j with
      | zero => simp
      | succ j' => simpa using ih i' j' v (fun h => hij (by rw [h]))

theorem byteAt_take (l : List Nat) (m i : Nat) (h : i < m) : byteAt (l.take m) i = byteAt l i := by
  unfold byteAt; rw [getD_take l m i h]

theorem byteAt_len_le (l : List Nat) (i : Nat) (h : l.length ≤ i) : byteAt l i = 0 := by
  unfold byteAt; rw [getD_len_le l i h]

theorem lt_len_of_byteAt_ne (l : List Nat) (i : Nat) (h : byteAt l i ≠ 0) : i < l.length := by
  by_contra hc
  exact h (byteAt_len_le l i (by omega))

theorem byteAt_set_self (l : List Nat) (i v : Nat) (h : i < l.length) :
    byteAt (l.set i v) i = v % 256 := by
  unfold byteAt; rw [getD_set_self l i v h]

theorem byteAt_set_ne (l : List Nat) (i j v : Nat) (h : i ≠ j) :
    byteAt (l.set i v) j = byteAt l j := by
  unfold byteAt; rw [getD_set_ne l i j v h]

theorem read32Lo_take (l : List Nat) (m i : Nat) (h : i + 4 ≤ m) :
    read32Lo (l.take m) i = read32Lo l i := by
  unfold read32Lo
  rw [byteAt_take l m i (by omega), byteAt_take l m (i + 1) (by omega),
    byteAt_take l m (i + 2) (by omega), byteAt_take l m (i + 3) (by omega)]

theorem read32Hi_take (l : List Nat) (m i : Nat) (h : i + 4 ≤ m) :
    read32Hi (l.take m) i = read32Hi l i := by
  unfold read32Hi
  rw [byteAt_take l m i (by omega), byteAt_take l m (i + 1) (by omega),
    byteAt_take l m (i + 2) (by omega), byteAt_take l m (i + 3) (by omega)]

theorem read64Lo_take (l : List Nat) (m i : Nat) (h : i + 8 ≤ m) :
    read64Lo (l.take m) i = read64Lo l i := by
  unfold read64Lo
  rw [byteAt_take l m i (by omega), byteAt_take l m (i + 1) (by omega),
    byteAt_take l m (i + 2) (by omega), byteAt_take l m (i + 3) (by omega),
    byteAt_take l m (i + 4) (by omega), byteAt_take l m (i + 5) (by omega),
    byteAt_take l m (i + 6) (by omega), byteAt_take l m (i + 7) (by omega)]

theorem magicOk_take (l : List Nat) (m : Nat) (h : 4 ≤ m) : magicOk (l.take m) = magicOk l := by
  unfold magicOk
  rw [byteAt_take l m 0 (by omega), byteAt_take l m 1 (by omega),
    byteAt_take l m 2 (by omega), byteAt_take l m 3 (by omega)]

theorem tagOk_take (l : List Nat) (m pb : Nat) (h : pb + 4 ≤ m) :
    tagOk (l.take m) pb = tagOk l pb := by
  unfold tagOk
  rw [byteAt_take l m pb (by omega), byteAt_take l m (pb + 1) (by omega),
    byteAt_take l m (pb + 2) (by omega), byteAt_take l m (pb + 3) (by omega)]

theorem headerEndOk_take (l : List Nat) (m i : Nat) (h : i + 4 ≤ m) :
    headerEndOk (l.take m) i = headerEndOk l i := by
  unfold headerEndOk
  rw [byteAt_take l m i (by omega), byteAt_take l m (i + 1) (by omega),
    byteAt_take l m (i + 2) (by omega), byteAt_take l m (i + 3) (by omega)]

theorem append_ne_empty (a b : String) (h : a ≠ "") : a ++ b ≠ "" := by
  intro hab
  apply h
  apply String.ext
  have h2 := congrArg String.data hab
  rw [String.data_append] at h2
  have h3 := List.append_eq_nil.mp h2
  simpa using h3.1

/-! ### The NUL scan stays below any known zero byte -/

theorem cStringGo_length_le (buf : List Nat) (j : Nat) (hj : byteAt buf j = 0) :
    ∀ (fuel i : Nat), i ≤ j → (cStringGo buf fuel i).length ≤ j - i := by
  intro fuel
  induction fuel with
  | zero => intro i _; simp [cStringGo]
  | succ f ih =>
    intro i hij
    by_cases hb : byteAt buf i = 0
    · simp [cStringGo, hb]
    · have hij' : i + 1 ≤ j := by
        rcases Nat.lt_or_ge i j with hlt | hge
        · omega
        · exact absurd hj (by rw [← Nat.le_antisymm hij hge]; exact hb)
      have h2 := ih (i + 1) hij'
      simp only [cStringGo, if_neg hb, List.length_cons]
      omega

theorem cString_length_le (buf : List Nat) (start j : Nat) (hj : byteAt buf j = 0)
    (hsj : start ≤ j) : (cString buf start).length ≤ j - start :=
  cStringGo_length_le buf j hj (buf.length + 1 - start) start hsj

/-! ### Inversion and construction for the per-cookie step -/

theorem decodeCookie_ok_inv {buf : List Nat} {len pageEnd cookieBase cookieIdx pageIdx : Nat}
    {first : Bool} {out : String}
    (h : decodeCookie buf len pageEnd cookieBase cookieIdx pageIdx first = .ok out) :
    ¬ len < cookieBase + 56
    ∧ ¬ pageEnd < cookieBase + read32Lo buf cookieBase
    ∧ byteAt buf (nulCheckIndex cookieBase (read32Lo buf cookieBase)) = 0
    ∧ read32Lo buf (cookieBase + 16) ≤ read32Lo buf cookieBase
    ∧ read32Lo buf (cookieBase + 20) ≤ read32Lo buf cookieBase
    ∧ read32Lo buf (cookieBase + 24) ≤ read32Lo buf cookieBase
    ∧ read32Lo buf (cookieBase + 28) ≤ read32Lo buf cookieBase
    ∧ read32Lo buf (cookieBase + 32) ≤ read32Lo buf cookieBase
    ∧ read32Lo buf (cookieBase + 36) ≤ read32Lo buf cookieBase
    ∧ out = cookieChunk buf cookieBase first := by
  rw [decodeCookie] at h
  split_ifs at h with h1 h2 h3 h4 h5 h6 h7 h8 h9
  injection h with h10
  subst h10
  exact ⟨h1, h2, by omega, by omega, by omega, by omega, by omega, by omega, by omega, rfl⟩

theorem decodeCookie_ok_of {buf : List Nat} {len pageEnd cookieBase cookieIdx pageIdx : Nat}
    {first : Bool}
    (H1 : ¬ len < cookieBase + 56)
    (H2 : ¬ pageEnd < cookieBase + read32Lo buf cookieBase)
    (H3 : byteAt buf (nulCheckIndex cookieBase (read32Lo buf cookieBase)) = 0)
    (H4 : read32Lo buf (cookieBase + 16) ≤ read32Lo buf cookieBase)
    (H5 : read32Lo buf (cookieBase + 20) ≤ read32Lo buf cookieBase)
    (H6 : read32Lo buf (cookieBase + 24) ≤ read32Lo buf cookieBase)
    (H7 : read32Lo buf (cookieBase + 28) ≤ read32Lo buf cookieBase)
    (H8 : read32Lo buf (cookieBase + 32) ≤ read32Lo buf cookieBase)
    (H9 : read32Lo buf (cookieBase + 36) ≤ read32Lo buf cookieBase) :
    decodeCookie buf len pageEnd cookieBase cookieIdx pageIdx first
      = .ok (cookieChunk buf cookieBase first) := by
  rw [decodeCookie, if_neg H1, if_neg H2, if_neg (by omega), if_neg (by omega),
    if_neg (by omega), if_neg (by omega), if_neg (by omega), if_neg (by omega),
    if_neg (by omega)]

/-! ### Error classification: every failure carries a nonzero exit code and
a nonempty stderr diagnostic -/

theorem decodeCookie_error_inv {buf : List Nat} {len pageEnd cookieBase cookieIdx pageIdx : Nat}
    {first : Bool} {e : DecodeFail}
    (h : decodeCookie buf len pageEnd cookieBase cookieIdx pageIdx first = .error e) :
    e.code = EXIT_CODE_BAD_PARSE ∧ e.out = "" ∧ e.msg ≠ "" := by
  rw [decodeCookie] at h
  split_ifs at h
  all_goals
    injection h with h'
    subst h'
    refine ⟨rfl, rfl, ?_⟩
    repeat apply append_ne_empty
    decide

theorem decodeCookies_error_inv (buf : List Nat) (len pageEnd pageBase pageIdx : Nat) :
    ∀ (r offOff cookieIdx : Nat) (first : Bool) (e : DecodeFail),
      decodeCookies buf len pageEnd pageBase pageIdx r offOff cookieIdx first = .error e →
      e.code = EXIT_CODE_BAD_PARSE ∧ e.msg ≠ "" := by
  intro r
  induction r with
  | zero =>
    intro offOff cookieIdx first e h
    exact Except.noConfusion h
  | succ r ih =>
    intro offOff cookieIdx first e h
    rw [decodeCookies] at h
    split at h
    next e1 heq =>
      injection h with h'
      subst h'
      have h2 := decodeCookie_error_inv heq
      exact ⟨h2.1, h2.2.2⟩
    next chunk heq =>
      split at h
      next e2 heq2 =>
        injection h with h'
        subst h'
        have h2 := ih (offOff + 4) (cookieIdx + 1) false e2 heq2
        exact ⟨h2.1, h2.2⟩
      next rest f heq2 =>
        exact Except.noConfusion h

theorem processPages_error_inv (buf : List Nat) (len : Nat) :
    ∀ (r sizeOff pageBase pageIdx : Nat) (first : Bool) (checkSum : Nat) (e : DecodeFail),
      processPages buf len r sizeOff pageBase pageIdx first checkSum = .error e →
      e.code ≠ 0 ∧ e.msg ≠ "" := by
  intro r
  induction r with
  | zero =>
    intro sizeOff pageBase pageIdx first checkSum e h
    exact Except.noConfusion h
  | succ r ih =>
    intro sizeOff pageBase pageIdx first checkSum e h
    rw [processPages] at h
    split_ifs at h
    all_goals try
      (injection h with h'
       subst h'
       refine ⟨fun hc => by
         simp [EXIT_CODE_BAD_EOF, EXIT_CODE_BAD_PARSE, EXIT_CODE_BAD_MAGIC] at hc, ?_⟩
       repeat apply append_ne_empty
       decide)
    split at h
    next e1 heq =>
      injection h with h'
      subst h'
      have h2 := decodeCookies_error_inv buf len _ pageBase pageIdx _ (pageBase + 8) 0 first e1 heq
      refine ⟨?_, h2.2⟩
      rw [h2.1]
      decide
    next out1 first1 heq =>
      split at h
      next e2 heq2 =>
        injection h with h'
        subst h'
        have h2 := ih (sizeOff + 4) (pageBase + read32Hi buf sizeOff) (pageIdx + 1) first1 _ e2 heq2
        exact ⟨h2.1, h2.2⟩
      next rest f cs pe heq2 =>
        exact Except.noConfusion h

/-! ### The final cursor of the page loop -/

theorem processPages_ok_pe (buf : List Nat) (len : Nat) :
    ∀ (r sizeOff pageBase pageIdx : Nat) (first : Bool) (checkSum : Nat)
      (out : String) (f2 : Bool) (cs2 pe : Nat),
      processPages buf len r sizeOff pageBase pageIdx first checkSum = .ok (out, f2, cs2, pe) →
      pe = pageBase + sumPageSizes buf r sizeOff := by
  intro r
  induction r with
  | zero =>
    intro sizeOff pageBase pageIdx first checkSum out f2 cs2 pe h
    rw [processPages] at h
    injection h with h'
    injection h' with hout h'
    injection h' with hf h'
    injection h' with hcs hpe
    rw [← hpe, sumPageSizes]
    omega
  | succ r ih =>
    intro sizeOff pageBase pageIdx first checkSum out f2 cs2 pe h
    rw [processPages] at h
    split_ifs at h
    split at h
    next e1 heq => exact Except.noConfusion h
    next out1 first1 heq =>
      split at h
      next e2 heq2 => exact Except.noConfusion h
      next rest f cs pe' heq2 =>
        injection h with h'
        injection h' with hout h'
        injection h' with hf h'
        injection h' with hcs hpe
        have h2 := ih (sizeOff + 4) (pageBase + read32Hi buf sizeOff) (pageIdx + 1) first1 _
          rest f cs pe' heq2
        rw [← hpe, h2, sumPageSizes]
        omega

/-! ### The checksum loop equals the stride-4 lane sum -/

theorem laneSumGo_spec (buf : List Nat) (stop : Nat) :
    ∀ (fuel base : Nat), stop ≤ base + fuel →
      laneSumGo buf stop fuel base
        = ∑ k in Finset.range ((stop - base + 3) / 4), byteAt buf (base + 4 * k) := by
  intro fuel
  induction fuel with
  | zero =>
    intro base h
    have h0 : (stop - base + 3) / 4 = 0 := by omega
    simp [laneSumGo, h0]
  | succ f ih =>
    intro base h
    by_cases hb : base < stop
    · have hrec := ih (base + 4) (by omega)
      rw [laneSumGo, if_pos hb, hrec]
      have hn : (stop - base + 3) / 4 = ((stop - (base + 4) + 3) / 4) + 1 := by omega
      rw [hn, Finset.sum_range_succ']
      have hsum : (∑ k in Finset.range ((stop - (base + 4) + 3) / 4), byteAt buf (base + 4 + 4 * k))
          = ∑ k in Finset.range ((stop - (base + 4) + 3) / 4), byteAt buf (base + 4 * (k + 1)) :=
        Finset.sum_congr rfl (fun k _ => by
          rw [show base + 4 + 4 * k = base + 4 * (k + 1) from by ring])
      rw [hsum, show base + 4 * 0 = base from by ring]
      omega
    · have h0 : (stop - base + 3) / 4 = 0 := by omega
      rw [laneSumGo, if_neg hb, h0]
      simp

theorem laneSum_spec (buf : List Nat) (base stop : Nat) :
    laneSum buf base stop
      = ∑ k in Finset.range ((stop - base + 3) / 4), byteAt buf (base + 4 * k) :=
  laneSumGo_spec buf stop (stop - base) base (by omega)

theorem processPages_ok_checkSum (buf : List Nat) (len : Nat) :
    ∀ (r sizeOff pageBase pageIdx : Nat) (first : Bool) (checkSum : Nat)
      (out : String) (f2 : Bool) (cs2 pe : Nat),
      checkSum < 4294967296 →
      processPages buf len r sizeOff pageBase pageIdx first checkSum = .ok (out, f2, cs2, pe) →
      cs2 = (checkSum + pagesLaneSum buf r sizeOff pageBase) % 4294967296 := by
  intro r
  induction r with
  | zero =>
    intro sizeOff pageBase pageIdx first checkSum out f2 cs2 pe hcs h
    rw [processPages] at h
    injection h with h'
    injection h' with hout h'
    injection h' with hf h'
    injection h' with hcs2 hpe
    rw [← hcs2, pagesLaneSum, Nat.add_zero, Nat.mod_eq_of_lt hcs]
  | succ r ih =>
    intro sizeOff pageBase pageIdx first checkSum out f2 cs2 pe hcs h
    rw [processPages] at h
    split_ifs at h
    split at h
    next e1 heq => exact Except.noConfusion h
    next out1 first1 heq =>
      split at h
      next e2 heq2 => exact Except.noConfusion h
      next rest f cs pe' heq2 =>
        injection h with h'
        injection h' with hout h'
        injection h' with hf h'
        injection h' with hcs2 hpe
        have h2 := ih (sizeOff + 4) (pageBase + read32Hi buf sizeOff) (pageIdx + 1) first1 _
          rest f cs pe' (Nat.mod_lt _ (by norm_num)) heq2
        have hlane : laneSum buf pageBase (pageBase + read32Hi buf sizeOff)
            = ∑ k in Finset.range ((read32Hi buf sizeOff + 3) / 4), byteAt buf (pageBase + 4 * k) := by
          rw [laneSum_spec,
            show pageBase + read32Hi buf sizeOff - pageBase = read32Hi buf sizeOff from by omega]
        rw [← hcs2, h2, pagesLaneSum, ← hlane]
        rw [Nat.mod_add_mod]
        congr 1
        omega

/-! ### Truncation transfer: a successful page run, truncated at `m`, either
still succeeds (when all pages fit below `m`) or fails with the EOF code,
provided every cookie's 56-byte fixed header lies inside its page -/

theorem decodeCookie_take {buf : List Nat} {len pageEnd cookieBase cookieIdx pageIdx m : Nat}
    {first : Bool} {out : String}
    (h : decodeCookie buf len pageEnd cookieBase cookieIdx pageIdx first = .ok out)
    (hhdr : cookieBase + 56 ≤ pageEnd) (hpem : pageEnd ≤ m) (hpe8 : 8 ≤ pageEnd) :
    decodeCookie (buf.take m) m pageEnd cookieBase cookieIdx pageIdx first
      = .ok (cookieChunk (buf.take m) cookieBase first) := by
  obtain ⟨H1, H2, H3, H4, H5, H6, H7, H8, H9, -⟩ := decodeCookie_ok_inv h
  have hsz : read32Lo (buf.take m) cookieBase = read32Lo buf cookieBase :=
    read32Lo_take buf m cookieBase (by omega)
  have h16 : read32Lo (buf.take m) (cookieBase + 16) = read32Lo buf (cookieBase + 16) :=
    read32Lo_take buf m (cookieBase + 16) (by omega)
  have h20 : read32Lo (buf.take m) (cookieBase + 20) = read32Lo buf (cookieBase + 20) :=
    read32Lo_take buf m (cookieBase + 20) (by omega)
  have h24 : read32Lo (buf.take m) (cookieBase + 24) = read32Lo buf (cookieBase + 24) :=
    read32Lo_take buf m (cookieBase + 24) (by omega)
  have h28 : read32Lo (buf.take m) (cookieBase + 28) = read32Lo buf (cookieBase + 28) :=
    read32Lo_take buf m (cookieBase + 28) (by omega)
  have h32 : read32Lo (buf.take m) (cookieBase + 32) = read32Lo buf (cookieBase + 32) :=
    read32Lo_take buf m (cookieBase + 32) (by omega)
  have h36 : read32Lo (buf.take m) (cookieBase + 36) = read32Lo buf (cookieBase + 36) :=
    read32Lo_take buf m (cookieBase + 36) (by omega)
  have hidx : nulCheckIndex cookieBase (read32Lo buf cookieBase) < m := by
    unfold nulCheckIndex
    omega
  have hnul : byteAt (buf.take m)
      (nulCheckIndex cookieBase (read32Lo (buf.take m) cookieBase)) = 0 := by
    rw [hsz, byteAt_take buf m _ hidx]
    exact H3
  refine decodeCookie_ok_of ?_ ?_ hnul ?_ ?_ ?_ ?_ ?_ ?_
  · omega
  · rw [hsz]; exact H2
  · rw [h16, hsz]; exact H4
  · rw [h20, hsz]; exact H5
  · rw [h24, hsz]; exact H6
  · rw [h28, hsz]; exact H7
  · rw [h32, hsz]; exact H8
  · rw [h36, hsz]; exact H9

theorem decodeCookies_take (buf : List Nat) (len pageEnd pageBase pageIdx m : Nat)
    (hpem : pageEnd ≤ m) (hpe8 : 8 ≤ pageEnd) :
    ∀ (r offOff cookieIdx : Nat) (first : Bool) (out : String) (f2 : Bool),
      decodeCookies buf len pageEnd pageBase pageIdx r offOff cookieIdx first = .ok (out, f2) →
      cookiesHeadersOk buf pageEnd pageBase r offOff = true →
      offOff + 4 * r + 4 ≤ pageEnd →
      ∃ out', decodeCookies (buf.take m) m pageEnd pageBase pageIdx r offOff cookieIdx first
        = .ok (out', f2) := by
  intro r
  induction r with
  | zero =>
    intro offOff cookieIdx first out f2 h _ _
    rw [decodeCookies] at h
    injection h with h'
    injection h' with hout hf
    exact ⟨"", by rw [decodeCookies, hf]⟩
  | succ r ih =>
    intro offOff cookieIdx first out f2 h hheads hoff
    rw [decodeCookies] at h
    rw [cookiesHeadersOk, Bool.and_eq_true] at hheads
    have hh1 : pageBase + read32Lo buf offOff + 56 ≤ pageEnd := of_decide_eq_true hheads.1
    have hent : read32Lo (buf.take m) offOff = read32Lo buf offOff :=
      read32Lo_take buf m offOff (by omega)
    split at h
    next e1 heq => exact Except.noConfusion h
    next chunk heq =>
      split at h
      next e2 heq2 => exact Except.noConfusion h
      next rest f heq2 =>
        injection h with h'
        injection h' with hout hf
        have hctake := decodeCookie_take heq hh1 hpem hpe8
        obtain ⟨rest', hrec'⟩ := ih (offOff + 4) (cookieIdx + 1) false rest f heq2 hheads.2 (by omega)
        refine ⟨cookieChunk (buf.take m) (pageBase + read32Lo buf offOff) first ++ rest', ?_⟩
        rw [decodeCookies, hent, hctake, hrec', hf]

theorem processPages_take (buf : List Nat) (len m : Nat) :
    ∀ (r sizeOff pageBase pageIdx : Nat) (first : Bool) (checkSum : Nat)
      (out : String) (f2 : Bool) (cs2 pe : Nat),
      processPages buf len r sizeOff pageBase pageIdx first checkSum = .ok (out, f2, cs2, pe) →
      pagesHeadersOk buf r sizeOff pageBase = true →
      sizeOff + 4 * r ≤ pageBase →
      8 ≤ pageBase →
      pageBase ≤ m →
      ∀ checkSum' : Nat,
        (pe ≤ m → ∃ out' cs',
          processPages (buf.take m) m r sizeOff pageBase pageIdx first checkSum'
            = .ok (out', f2, cs', pe))
        ∧ (m < pe → ∃ e : DecodeFail,
          processPages (buf.take m) m r sizeOff pageBase pageIdx first checkSum'
            = .error e ∧ e.code = EXIT_CODE_BAD_EOF) := by
  intro r
  induction r with
  | zero =>
    intro sizeOff pageBase pageIdx first checkSum out f2 cs2 pe h _ _ _ hpm checkSum'
    rw [processPages] at h
    injection h with h'
    injection h' with hout h'
    injection h' with hf h'
    injection h' with hcs hpe
    constructor
    · intro _
      exact ⟨"", checkSum', by rw [processPages, hf, hpe]⟩
    · intro hml
      omega
  | succ r ih =>
    intro sizeOff pageBase pageIdx first checkSum out f2 cs2 pe h hheads hso h8 hpm checkSum'
    rw [processPages] at h
    split_ifs at h with hE1 hE2 hE3 hE4 hE5
    rw [pagesHeadersOk, Bool.and_eq_true] at hheads
    have hszA : read32Hi (buf.take m) sizeOff = read32Hi buf sizeOff :=
      read32Hi_take buf m sizeOff (by omega)
    split at h
    next e1 heq => exact Except.noConfusion h
    next out1 first1 heq =>
      split at h
      next e2 heq2 => exact Except.noConfusion h
      next rest f cs pe' heq2 =>
        injection h with h'
        injection h' with hout h'
        injection h' with hf h'
        injection h' with hcs hpe
        subst hpe
        subst hf
        have hfin := processPages_ok_pe buf len r (sizeOff + 4) (pageBase + read32Hi buf sizeOff)
          (pageIdx + 1) first1 _ rest f cs pe' heq2
        by_cases hcase : pageBase + read32Hi buf sizeOff ≤ m
        · have htag : tagOk (buf.take m) pageBase = tagOk buf pageBase :=
            tagOk_take buf m pageBase (by omega)
          have hcnt : read32Lo (buf.take m) (pageBase + 4) = read32Lo buf (pageBase + 4) :=
            read32Lo_take buf m (pageBase + 4) (by omega)
          have hhe : headerEndOk (buf.take m) (pageBase + 8 + 4 * read32Lo buf (pageBase + 4))
              = headerEndOk buf (pageBase + 8 + 4 * read32Lo buf (pageBase + 4)) :=
            headerEndOk_take buf m _ (by omega)
          obtain ⟨out1', hdc'⟩ := decodeCookies_take buf len (pageBase + read32Hi buf sizeOff)
            pageBase pageIdx m hcase (by omega) (read32Lo buf (pageBase + 4)) (pageBase + 8) 0 first
            out1 first1 heq hheads.1 (by omega)
          have hIH := ih (sizeOff + 4) (pageBase + read32Hi buf sizeOff) (pageIdx + 1) first1 _
            rest f cs pe' heq2 hheads.2 (by omega) (by omega) hcase
            ((checkSum' + laneSum (buf.take m) pageBase (pageBase + read32Hi buf sizeOff)) % 4294967296)
          have hstep : processPages (buf.take m) m (r + 1) sizeOff pageBase pageIdx first checkSum'
              = match processPages (buf.take m) m r (sizeOff + 4) (pageBase + read32Hi buf sizeOff)
                  (pageIdx + 1) first1
                  ((checkSum' + laneSum (buf.take m) pageBase (pageBase + read32Hi buf sizeOff))
                    % 4294967296) with
                | .error e => .error ⟨e.code, out1' ++ e.out, e.msg⟩
                | .ok (rest, f, cs, pe) => .ok (out1' ++ rest, f, cs, pe) := by
            rw [processPages, hszA, hcnt, htag, hhe,
              if_neg (by omega), if_neg hE2, if_neg hE3, if_neg hE4, if_neg hE5, hdc']
          constructor
          · intro hpem'
            obtain ⟨rest', cs'', hrec'⟩ := hIH.1 hpem'
            refine ⟨out1' ++ rest', cs'', ?_⟩
            rw [hstep, hrec']
          · intro hml
            obtain ⟨e, hrec', hcode⟩ := hIH.2 hml
            refine ⟨⟨e.code, out1' ++ e.out, e.msg⟩, ?_, hcode⟩
            rw [hstep, hrec']
        · constructor
          · intro hpem'
            omega
          · intro _
            refine ⟨⟨EXIT_CODE_BAD_EOF, "",
              "File too short, incomplete page " ++ toString pageIdx ++ "\n"⟩, ?_, rfl⟩
            rw [processPages, hszA, if_pos (by omega)]

/-! ### Inversion of a fully successful run -/

theorem printCookies_ok_inv {len : Nat} {buf : List Nat}
    (h : (printCookiesFromMmap len buf).exitCode = EXIT_CODE_OK) :
    ¬ len < 8 ∧ magicOk buf = true ∧ ¬ len < 8 + 4 * read32Hi buf 4
    ∧ ∃ out f2 cs pe,
        processPages buf len (read32Hi buf 4) 8 (8 + 4 * read32Hi buf 4) 0 true 0
          = .ok (out, f2, cs, pe)
        ∧ pe + 12 ≤ len := by
  rw [printCookiesFromMmap] at h
  split_ifs at h with h1 h2 h3
  · exact absurd h (by decide)
  · exact absurd h (by decide)
  · exact absurd h (by decide)
  · split at h
    next e heq =>
      have h2' := processPages_error_inv buf len _ 8 _ 0 true 0 e heq
      exact absurd h h2'.1
    next out f2 cs pe heq =>
      refine ⟨h1, ?_, h3, out, f2, cs, pe, heq, ?_⟩
      · cases hmb : magicOk buf with
        | false => exact absurd hmb h2
        | true => rfl
      · rw [trailerStep] at h
        split_ifs at h with t1 t2 t3 t4
        · exact absurd (show EXIT_CODE_BAD_EOF = EXIT_CODE_OK from h) (by decide)
        · exact absurd (show EXIT_CODE_BAD_PARSE = EXIT_CODE_OK from h) (by decide)
        · exact absurd (show EXIT_CODE_BAD_MAGIC = EXIT_CODE_OK from h) (by decide)
        · exact absurd (show EXIT_CODE_BAD_PARSE = EXIT_CODE_OK from h) (by decide)
        · omega

/-- Claim C2, counterexample: the two-page file `S` decodes successfully,
the truncation boundary 68 lies strictly before the footer (which starts at
82), yet decoding the truncation fails with `EXIT_CODE_BAD_PARSE`
("Cookie 0 in Page 0 too short for cookie header"), not the TooShort/EOF
class: the straddling cookie's 56-byte fixed-header presence check is
against the (now truncated) end of file and reports BadParse. -/
theorem c2_cex :
    (printCookiesFromMmap 90 S).exitCode = EXIT_CODE_OK
    ∧ S.length = 90
    ∧ 68 < footerPos S
    ∧ (printCookiesFromMmap 68 (S.take 68)).exitCode = EXIT_CODE_BAD_PARSE
    ∧ (printCookiesFromMmap 68 (S.take 68)).stderr
        = "Cookie 0 in Page 0 too short for cookie header\n"
    ∧ EXIT_CODE_BAD_PARSE ≠ EXIT_CODE_BAD_EOF := by
  refine ⟨by decide, by decide, by decide, by decide, by decide, by decide⟩

/-- Claim C2 (amended): for every file that decodes successfully and in
which every cookie's 56-byte fixed header lies inside its page
(`headersContained`), truncating the file at any byte boundary strictly
before the footer makes decoding fail with the TooShort/EOF exit code —
never a successful decode.  (The containment hypothesis is necessary: see
the counterexample, where a cookie's fixed header straddles past its page's
end and the truncated decode fails with BadParse instead.) -/
theorem c2_thm (buf : List Nat) (m : Nat)
    (hok : (printCookiesFromMmap buf.length buf).exitCode = EXIT_CODE_OK)
    (hhc : headersContained buf = true)
    (hm : m < footerPos buf) :
    (printCookiesFromMmap m (buf.take m)).exitCode = EXIT_CODE_BAD_EOF := by
  obtain ⟨hl8, hmagic, hltab, out, f2, cs, pe, hpp, htrail⟩ := printCookies_ok_inv hok
  have hpe := processPages_ok_pe buf buf.length (read32Hi buf 4) 8 (8 + 4 * read32Hi buf 4) 0
    true 0 out f2 cs pe hpp
  have hfp : footerPos buf = 8 + 4 * read32Hi buf 4 + sumPageSizes buf (read32Hi buf 4) 8 + 4 :=
    rfl
  rw [printCookiesFromMmap]
  by_cases hm8 : m < 8
  · rw [if_pos hm8]
  · rw [if_neg hm8]
    have hmg : magicOk (buf.take m) = true := by
      rw [magicOk_take buf m (by omega)]; exact hmagic
    have hmg' : ¬ magicOk (buf.take m) = false := by rw [hmg]; decide
    rw [if_neg hmg']
    have hp4 : read32Hi (buf.take m) 4 = read32Hi buf 4 := read32Hi_take buf m 4 (by omega)
    rw [hp4]
    by_cases hmtab : m < 8 + 4 * read32Hi buf 4
    · rw [if_pos hmtab]
    · rw [if_neg hmtab]
      have hcont : pagesHeadersOk buf (read32Hi buf 4) 8 (8 + 4 * read32Hi buf 4) = true := hhc
      have HT := processPages_take buf buf.length m (read32Hi buf 4) 8 (8 + 4 * read32Hi buf 4) 0
        true 0 out f2 cs pe hpp hcont (by omega) (by omega) (by omega) 0
      by_cases hmp : pe ≤ m
      · obtain ⟨out', cs', hpp'⟩ := HT.1 hmp
        simp only [hpp']
        rw [trailerStep, if_pos (by omega)]
      · obtain ⟨e, hpp', hcode⟩ := HT.2 (by omega)
        simp only [hpp']
        exact hcode

/-- Claim C2, witness: the amended theorem applied to the concrete
well-formed file `F4` truncated at byte 20. -/
theorem c2_wit :
    (printCookiesFromMmap F4.length F4).exitCode = EXIT_CODE_OK
    ∧ headersContained F4 = true
    ∧ 20 < footerPos F4
    ∧ (printCookiesFromMmap 20 (F4.take 20)).exitCode = EXIT_CODE_BAD_EOF :=
  ⟨by decide, by decide, by decide, c2_thm F4 20 (by decide) (by decide) (by decide)⟩

/-- Claim C3, counterexample: on the input `B3` the decode fails (exit code
`EXIT_CODE_BAD_EOF`), yet the output sink already holds the JSON prefix
emitted before the failure was detected — the claim that nothing is emitted
on any error is false. -/
theorem c3_cex :
    (printCookiesFromMmap 12 B3).exitCode = EXIT_CODE_BAD_EOF
    ∧ (printCookiesFromMmap 12 B3).exitCode ≠ EXIT_CODE_OK
    ∧ (printCookiesFromMmap 12 B3).stdout
        = emitJsonBeginObject ++ emitJsonString (lit "cookies") ++ emitJsonNameSeparator
            ++ emitJsonBeginArray
    ∧ (printCookiesFromMmap 12 B3).stdout ≠ "" := by
  refine ⟨by decide, by decide, by decide, by decide⟩

/-- Claim C3 (amended): on every input, the run succeeds (exit code
`EXIT_CODE_OK`) exactly when the stderr channel is empty — so every failure
is reported distinctly from success and carries a diagnostic on the error
channel — but JSON text already emitted stays on the output sink: on the
concrete failing input `B3` the partial text `{"cookies":[` is on stdout. -/
theorem c3_thm :
    (∀ (len : Nat) (buf : List Nat),
        ((printCookiesFromMmap len buf).exitCode = EXIT_CODE_OK
          ↔ (printCookiesFromMmap len buf).stderr = ""))
    ∧ (printCookiesFromMmap 12 B3).exitCode ≠ EXIT_CODE_OK
    ∧ (printCookiesFromMmap 12 B3).stdout ≠ "" := by
  refine ⟨?_, by decide, by decide⟩
  intro len buf
  rw [printCookiesFromMmap]
  split_ifs with h1 h2 h3
  · exact ⟨fun hc => absurd hc (by decide), fun hc => absurd hc (by decide)⟩
  · exact ⟨fun hc => absurd hc (by decide), fun hc => absurd hc (by decide)⟩
  · exact ⟨fun hc => absurd hc (by decide), fun hc => absurd hc (by decide)⟩
  · split
    next e heq =>
      have h2' := processPages_error_inv buf len _ 8 _ 0 true 0 e heq
      exact ⟨fun hc => absurd hc h2'.1, fun hc => absurd hc h2'.2⟩
    next out f2 cs pe heq =>
      rw [trailerStep]
      split_ifs with t1 t2 t3 t4
      · exact ⟨fun hc => absurd (show EXIT_CODE_BAD_EOF = EXIT_CODE_OK from hc) (by decide),
          fun hc => absurd
            (show ("File too short, for checksum, footer, and plist size\n" : String) = "" from hc)
            (by decide)⟩
      · exact ⟨fun hc => absurd (show EXIT_CODE_BAD_PARSE = EXIT_CODE_OK from hc) (by decide),
          fun hc => absurd (show ("Bad file checksum\n" : String) = "" from hc) (by decide)⟩
      · exact ⟨fun hc => absurd (show EXIT_CODE_BAD_MAGIC = EXIT_CODE_OK from hc) (by decide),
          fun hc => absurd
            (show ("Bad file footer - is this a cookie file?\n" : String) = "" from hc)
            (by decide)⟩
      · exact ⟨fun hc => absurd (show EXIT_CODE_BAD_PARSE = EXIT_CODE_OK from hc) (by decide),
          fun hc => absurd
            (show ("File length and plist data length mismatch\n" : String) = "" from hc)
            (by decide)⟩
      · exact ⟨fun _ => rfl, fun _ => rfl⟩

/-- Claim C1, counterexample: the cookie at base 0 of buffer `B1` passes
every validation check (`decodeCookie` succeeds), its `domain` offset
equals its `recordSize` 58, and the scan for that field's terminating NUL
reads indices 58, 59, 60 — none of which is strictly below
`cookieEnd = 58`: the check `cookieStart + offset <= cookieEnd` admits the
boundary case `offset = recordSize`, where the scan starts at `cookieEnd`
and runs beyond it. -/
theorem c1_cex :
    decodeCookie B1 61 61 0 0 0 true = .ok (cookieChunk B1 0 true)
    ∧ read32Lo B1 (0 + 16) = 58
    ∧ read32Lo B1 0 = 58
    ∧ scanReads B1 (0 + read32Lo B1 (0 + 16)) = [58, 59, 60]
    ∧ ¬ (∀ i ∈ scanReads B1 (0 + read32Lo B1 (0 + 16)), i < 0 + read32Lo B1 0) := by
  refine ⟨rfl, by decide, by decide, by decide, by decide⟩

/-- Claim C1 (amended): for every buffer and every cookie whose validation
checks pass, every byte read while scanning a non-zero string field whose
offset is strictly below `recordSize` lies at an offset strictly below
`cookieEnd = cookieStart + recordSize`: the required zero byte at
`cookieEnd - 1` stops the scan.  (The unamended claim fails exactly at
`offset = recordSize`, which the checks also admit — see the
counterexample.) -/
theorem c1_thm (buf : List Nat) (len pageEnd cookieBase cookieIdx pageIdx : Nat)
    (first : Bool) (out : String)
    (hok : decodeCookie buf len pageEnd cookieBase cookieIdx pageIdx first = .ok out)
    (o : Nat)
    (ho : o = read32Lo buf (cookieBase + 16) ∨ o = read32Lo buf (cookieBase + 20)
        ∨ o = read32Lo buf (cookieBase + 24) ∨ o = read32Lo buf (cookieBase + 28)
        ∨ o = read32Lo buf (cookieBase + 32) ∨ o = read32Lo buf (cookieBase + 36))
    (hlt : o < read32Lo buf cookieBase) :
    ∀ i ∈ scanReads buf (cookieBase + o), i < cookieBase + read32Lo buf cookieBase := by
  intro i hi
  obtain ⟨-, -, H3, -, -, -, -, -, -, -⟩ := decodeCookie_ok_inv hok
  have hj : byteAt buf (cookieBase + read32Lo buf cookieBase - 1) = 0 := by
    have hdef : nulCheckIndex cookieBase (read32Lo buf cookieBase)
        = cookieBase + read32Lo buf cookieBase - 1 := rfl
    rw [← hdef]
    exact H3
  have hbound := cString_length_le buf (cookieBase + o)
    (cookieBase + read32Lo buf cookieBase - 1) hj (by omega)
  rw [scanReads, List.mem_map] at hi
  obtain ⟨k, hk, rfl⟩ := hi
  rw [List.mem_range] at hk
  omega

/-- Claim C1, witness: the amended theorem applied to the `name` field of
the cookie at base 0 of `B1` (offset 0 is below the record size 58; the
scan from index 0 reads indices 0 and 1 only). -/
theorem c1_wit :
    decodeCookie B1 61 61 0 0 0 true = .ok (cookieChunk B1 0 true)
    ∧ (0 : Nat) < read32Lo B1 0
    ∧ ∀ i ∈ scanReads B1 (0 + 0), i < 0 + read32Lo B1 0 :=
  ⟨rfl, by decide,
    c1_thm B1 61 61 0 0 0 true (cookieChunk B1 0 true) rfl 0
      (Or.inr (Or.inl (by decide))) (by decide)⟩

/-- Claim C4: on the spec's concrete input file (one page, one cookie with
domain "x.com", name "a", value "b", version 1, flags 0, zero offsets for
path/comment/commentUrl, expiry and creation 0.0, correct checksum and
footer) the program succeeds and renders exactly
`{"cookies":[{"version":1,"flags":0,"domain":"x.com","name":"a","value":"b","expiry":0,"creation":0}]}`
with the keys in that order and the absent fields omitted. -/
theorem c4_thm :
    printCookiesFromMmap 106 F4
      = ⟨EXIT_CODE_OK,
          "\x7b\"cookies\":[\x7b\"version\":1,\"flags\":0,\"domain\":\"x.com\",\"name\":\"a\",\"value\":\"b\",\"expiry\":0,\"creation\":0\x7d]\x7d",
          ""⟩ := by
  decide

/-- Claim C5: the checksum the page loop accumulates equals the sum, over
every page and over byte offsets 0, 4, 8, ... within that page, of the
byte at that offset, reduced modulo 2^32 (`pagesLaneSum` is literally that
double sum); and the trailer step fails whenever the big-endian
`savedChecksum` it reads differs from the accumulated checksum. -/
theorem c5_thm :
    (∀ (buf : List Nat) (len r sizeOff pageBase pageIdx : Nat) (first : Bool)
        (checkSum : Nat) (out : String) (f2 : Bool) (cs2 pe : Nat),
        checkSum < 4294967296 →
        processPages buf len r sizeOff pageBase pageIdx first checkSum = .ok (out, f2, cs2, pe) →
        cs2 = (checkSum + pagesLaneSum buf r sizeOff pageBase) % 4294967296)
    ∧ (∀ (buf : List Nat) (len pagesEnd checkSum : Nat) (outSoFar : String),
        pagesEnd + 12 ≤ len → read32Hi buf pagesEnd ≠ checkSum →
        (trailerStep buf len pagesEnd checkSum outSoFar).exitCode ≠ EXIT_CODE_OK) := by
  constructor
  · intro buf len r sizeOff pageBase pageIdx first checkSum out f2 cs2 pe hcs h
    exact processPages_ok_checkSum buf len r sizeOff pageBase pageIdx first checkSum
      out f2 cs2 pe hcs h
  · intro buf len pagesEnd checkSum outSoFar hlen hne
    rw [trailerStep, if_neg (by omega), if_pos hne]
    exact fun hc => absurd (show EXIT_CODE_BAD_PARSE = EXIT_CODE_OK from hc) (by decide)

/-- Claim C5, witness: the checksum formula instantiated on the empty page
run of `B10`, and the trailer comparison instantiated on `F4bad` with an
accumulator of 0. -/
theorem c5_wit :
    (0 : Nat) < 4294967296
    ∧ processPages B10 96 0 8 12 0 true 0 = .ok ("", true, 0, 12)
    ∧ (0 : Nat) = (0 + pagesLaneSum B10 0 8 12) % 4294967296
    ∧ 94 + 12 ≤ 106
    ∧ read32Hi F4bad 94 ≠ 0
    ∧ (trailerStep F4bad 106 94 0 "").exitCode ≠ EXIT_CODE_OK :=
  ⟨by decide, rfl,
    c5_thm.1 B10 96 0 8 12 0 true 0 "" true 0 12 (by decide) rfl,
    by decide, by decide,
    c5_thm.2 F4bad 106 94 0 "" (by decide) (by decide)⟩

/-- Claim C6, counterexample: a checksum mismatch (`F4bad`, the valid file
`F4` with one checksum byte corrupted) exits with `EXIT_CODE_BAD_PARSE` —
the same exit code a bad structural parse produces (`F4plist`, the valid
file with a wrong declared plist size) — so the BadChecksum outcome is not
a distinct exit code from bad structural parse failures. -/
theorem c6_cex :
    (printCookiesFromMmap 106 F4bad).exitCode = EXIT_CODE_BAD_PARSE
    ∧ (printCookiesFromMmap 106 F4bad).stderr = "Bad file checksum\n"
    ∧ (printCookiesFromMmap 106 F4plist).exitCode = EXIT_CODE_BAD_PARSE
    ∧ (printCookiesFromMmap 106 F4plist).stderr
        = "File length and plist data length mismatch\n" := by
  refine ⟨by decide, by decide, by decide, by decide⟩

/-- Claim C6 (amended): when all checks before the trailer pass and the
computed running checksum differs from the saved checksum, decoding fails
with exit code `EXIT_CODE_BAD_PARSE` and the diagnostic "Bad file
checksum"; that exit code is distinguishable from the EOF/too-short code
and from the bad-magic code, but it is the same code a bad structural
parse produces — only the stderr diagnostic separates the two. -/
theorem c6_thm (buf : List Nat) (len pagesEnd checkSum : Nat) (outSoFar : String)
    (hlen : pagesEnd + 12 ≤ len) (hne : read32Hi buf pagesEnd ≠ checkSum) :
    trailerStep buf len pagesEnd checkSum outSoFar
      = ⟨EXIT_CODE_BAD_PARSE, outSoFar, "Bad file checksum\n"⟩
    ∧ EXIT_CODE_BAD_PARSE ≠ EXIT_CODE_BAD_EOF
    ∧ EXIT_CODE_BAD_PARSE ≠ EXIT_CODE_BAD_MAGIC := by
  refine ⟨?_, by decide, by decide⟩
  rw [trailerStep, if_neg (by omega), if_pos hne]

/-- Claim C6, witness: the amended theorem applied to the corrupted file
`F4bad` at the trailer position 94 with accumulator 0. -/
theorem c6_wit :
    94 + 12 ≤ 106
    ∧ read32Hi F4bad 94 ≠ 0
    ∧ trailerStep F4bad 106 94 0 ""
        = ⟨EXIT_CODE_BAD_PARSE, "", "Bad file checksum\n"⟩ :=
  ⟨by decide, by decide, (c6_thm F4bad 106 94 0 "" (by decide) (by decide)).1⟩

/-- Claim C7: `emitJsonOptionalSeparatedNamedValueString` emits nothing at
all when the field's offset is zero (never a null, never an empty string)
and emits the separator, quoted key and quoted value exactly when the
offset is non-zero; and every successfully decoded cookie's rendered object
is built by applying it to each of the six optional string fields' offsets
in the fixed order domain, name, path, value, comment, commentUrl. -/
theorem c7_thm :
    (∀ (present : Nat) (nm val : List Nat),
        (present = 0 → emitJsonOptionalSeparatedNamedValueString present nm val = "")
        ∧ (present ≠ 0 → emitJsonOptionalSeparatedNamedValueString present nm val
            = emitJsonValueSeparator ++ emitJsonString nm ++ emitJsonNameSeparator
                ++ emitJsonString val))
    ∧ (∀ (buf : List Nat) (len pageEnd cookieBase cookieIdx pageIdx : Nat) (first : Bool)
        (out : String),
        decodeCookie buf len pageEnd cookieBase cookieIdx pageIdx first = .ok out →
        out = (if first then "" else emitJsonValueSeparator)
          ++ emitJsonBeginObject
          ++ emitJsonNamedValueInt (lit "version") (intOfU32 (read32Lo buf (cookieBase + 4)))
          ++ emitJsonSeparatedNamedValueInt (lit "flags") (intOfU32 (read32Lo buf (cookieBase + 8)))
          ++ emitJsonOptionalSeparatedNamedValueString (read32Lo buf (cookieBase + 16))
              (lit "domain") (cString buf (cookieBase + read32Lo buf (cookieBase + 16)))
          ++ emitJsonOptionalSeparatedNamedValueString (read32Lo buf (cookieBase + 20))
              (lit "name") (cString buf (cookieBase + read32Lo buf (cookieBase + 20)))
          ++ emitJsonOptionalSeparatedNamedValueString (read32Lo buf (cookieBase + 24))
              (lit "path") (cString buf (cookieBase + read32Lo buf (cookieBase + 24)))
          ++ emitJsonOptionalSeparatedNamedValueString (read32Lo buf (cookieBase + 28))
              (lit "value") (cString buf (cookieBase + read32Lo buf (cookieBase + 28)))
          ++ emitJsonOptionalSeparatedNamedValueString (read32Lo buf (cookieBase + 32))
              (lit "comment") (cString buf (cookieBase + read32Lo buf (cookieBase + 32)))
          ++ emitJsonOptionalSeparatedNamedValueString (read32Lo buf (cookieBase + 36))
              (lit "commentUrl") (cString buf (cookieBase + read32Lo buf (cookieBase + 36)))
          ++ emitJsonSeparatedNamedValueDouble (lit "expiry") (read64Lo buf (cookieBase + 40))
          ++ emitJsonSeparatedNamedValueDouble (lit "creation") (read64Lo buf (cookieBase + 48))
          ++ emitJsonEndObject) := by
  constructor
  · intro present nm val
    constructor
    · intro h
      rw [emitJsonOptionalSeparatedNamedValueString, if_neg (by omega)]
    · intro h
      rw [emitJsonOptionalSeparatedNamedValueString, if_pos h]
  · intro buf len pageEnd cookieBase cookieIdx pageIdx first out hok
    obtain ⟨-, -, -, -, -, -, -, -, -, hout⟩ := decodeCookie_ok_inv hok
    rw [hout]
    rfl

/-- Claim C7, witness: the zero-offset and non-zero-offset equations at
concrete arguments, and the decoded shape of the cookie of `B1`. -/
theorem c7_wit :
    emitJsonOptionalSeparatedNamedValueString 0 (lit "path") (lit "x") = ""
    ∧ emitJsonOptionalSeparatedNamedValueString 5 (lit "path") (lit "x")
        = emitJsonValueSeparator ++ emitJsonString (lit "path") ++ emitJsonNameSeparator
            ++ emitJsonString (lit "x") :=
  ⟨(c7_thm.1 0 (lit "path") (lit "x")).1 rfl,
    (c7_thm.1 5 (lit "path") (lit "x")).2 (by decide)⟩

/-- Claim C8, counterexample: `S` decodes successfully, byte 68 is byte 2
(value 1) of page 1's 4-byte tag (page 1 starts at 66), yet flipping it to
255 fails decoding with `EXIT_CODE_BAD_PARSE` — not BadMagic: the flipped
byte is also read as the low byte of the `commentUrl` offset field of page
0's cookie, whose 56-byte fixed header straddles past page 0's end, and the
field-range check fires before page 1's tag is ever compared. -/
theorem c8_cex :
    (printCookiesFromMmap 90 S).exitCode = EXIT_CODE_OK
    ∧ byteAt S 68 = 1
    ∧ (printCookiesFromMmap 90 Sflip).exitCode = EXIT_CODE_BAD_PARSE
    ∧ (printCookiesFromMmap 90 Sflip).stderr = "Cookie 0 in Page 0 commentUrl out of range\n"
    ∧ EXIT_CODE_BAD_PARSE ≠ EXIT_CODE_BAD_MAGIC := by
  refine ⟨by decide, by decide, by decide, by decide, by decide⟩

/-- Claim C8 (amended): for every input on which decoding succeeds,
changing any single byte inside the 4-byte file magic makes decoding fail
with `EXIT_CODE_BAD_MAGIC`.  (For page tags, page terminators and the
footer the corresponding statement is false, because those bytes can also
be read as header fields of a cookie whose fixed header straddles past its
page — see the counterexample.) -/
theorem c8_thm (len : Nat) (buf : List Nat) (i v : Nat)
    (hok : (printCookiesFromMmap len buf).exitCode = EXIT_CODE_OK)
    (hi : i < 4) (hv : v % 256 ≠ byteAt buf i) :
    (printCookiesFromMmap len (buf.set i v)).exitCode = EXIT_CODE_BAD_MAGIC := by
  obtain ⟨hl8, hmagic, -, -⟩ := printCookies_ok_inv hok
  rw [magicOk] at hmagic
  simp only [Bool.and_eq_true, beq_iff_eq] at hmagic
  obtain ⟨⟨⟨m0, m1⟩, m2⟩, m3⟩ := hmagic
  have hne0 : byteAt buf i ≠ 0 := by
    interval_cases i
    · rw [m0]; decide
    · rw [m1]; decide
    · rw [m2]; decide
    · rw [m3]; decide
  have hlen : i < buf.length := lt_len_of_byteAt_ne buf i hne0
  have hset_i : byteAt (buf.set i v) i = v % 256 := byteAt_set_self buf i v hlen
  have hmagic' : magicOk (buf.set i v) = false := by
    cases hx : magicOk (buf.set i v) with
    | false => rfl
    | true =>
      exfalso
      rw [magicOk] at hx
      simp only [Bool.and_eq_true, beq_iff_eq] at hx
      obtain ⟨⟨⟨n0, n1⟩, n2⟩, n3⟩ := hx
      interval_cases i
      · exact hv (by rw [← hset_i, n0, m0])
      · exact hv (by rw [← hset_i, n1, m1])
      · exact hv (by rw [← hset_i, n2, m2])
      · exact hv (by rw [← hset_i, n3, m3])
  rw [printCookiesFromMmap, if_neg hl8, if_pos hmagic']

/-- Claim C8, witness: the amended theorem applied to `F4` with the first
magic byte zeroed. -/
theorem c8_wit :
    (printCookiesFromMmap 106 F4).exitCode = EXIT_CODE_OK
    ∧ (0 : Nat) < 4
    ∧ 0 % 256 ≠ byteAt F4 0
    ∧ (printCookiesFromMmap 106 (F4.set 0 0)).exitCode = EXIT_CODE_BAD_MAGIC :=
  ⟨by decide, by decide, by decide, c8_thm 106 F4 0 0 (by decide) (by decide) (by decide)⟩

/-- Claim C9, counterexample: `B9`'s single page fits its 28-byte buffer,
but its cookie-offset entry 15 puts the cookie at 27, so the buffer ends
before the cookie's 56-byte fixed header (27 + 56 > 28); the decode fails
with `EXIT_CODE_BAD_PARSE` ("too short for cookie header"), not with the
TooShort/EOF class as the claim states — and the fixed header is 56 bytes
(10 u32 + 2 u64), not 48. -/
theorem c9_cex :
    (printCookiesFromMmap 28 B9).exitCode = EXIT_CODE_BAD_PARSE
    ∧ (printCookiesFromMmap 28 B9).stderr = "Cookie 0 in Page 0 too short for cookie header\n"
    ∧ 12 + read32Lo B9 20 = 27
    ∧ 28 < 27 + 56
    ∧ EXIT_CODE_BAD_PARSE ≠ EXIT_CODE_BAD_EOF := by
  refine ⟨by decide, by decide, by decide, by decide, by decide⟩

/-- Claim C9 (amended): whenever the buffer ends before a cookie's 56-byte
fixed-width header (10 little-endian 32-bit fields and 2 little-endian
64-bit fields), the per-cookie step fails with the BadParse exit code and
the "too short for cookie header" diagnostic — the code classifies this
shortness as `EXIT_CODE_BAD_PARSE`, not as the TooShort/EOF class. -/
theorem c9_thm (buf : List Nat) (len pageEnd cookieBase cookieIdx pageIdx : Nat) (first : Bool)
    (h : len < cookieBase + 56) :
    decodeCookie buf len pageEnd cookieBase cookieIdx pageIdx first
      = .error ⟨EXIT_CODE_BAD_PARSE, "",
          "Cookie " ++ toString cookieIdx ++ " in Page " ++ toString pageIdx
            ++ " too short for cookie header\n"⟩
    ∧ EXIT_CODE_BAD_PARSE ≠ EXIT_CODE_BAD_EOF := by
  refine ⟨?_, by decide⟩
  rw [decodeCookie, if_pos h]

/-- Claim C9, witness: the amended theorem applied to the cookie of `B9`. -/
theorem c9_wit :
    28 < 27 + 56
    ∧ decodeCookie B9 28 28 27 0 0 true
        = .error ⟨EXIT_CODE_BAD_PARSE, "",
            "Cookie " ++ toString 0 ++ " in Page " ++ toString 0
              ++ " too short for cookie header\n"⟩ :=
  ⟨by decide, (c9_thm B9 28 28 27 0 0 true (by decide)).1⟩

/-- Claim C10: the decoder never requires `recordSize` to cover the 56-byte
fixed header it has already read: the concrete file `B10` decodes
successfully although its single cookie (at `cookieBase`
`= 12 + read32Lo B10 20 = 28`) declares `recordSize = 0 < 48`; and with
`recordSize = 0` the NUL-terminator check reads the byte at index
`nulCheckIndex 28 0 = 27 = cookieStart - 1`, which lies strictly below
`cookieStart`, outside the declared (empty) record. -/
theorem c10_thm :
    (printCookiesFromMmap 96 B10).exitCode = EXIT_CODE_OK
    ∧ 12 + read32Lo B10 20 = 28
    ∧ read32Lo B10 28 = 0
    ∧ read32Lo B10 28 < 48
    ∧ nulCheckIndex 28 (read32Lo B10 28) = 28 - 1
    ∧ nulCheckIndex 28 (read32Lo B10 28) < 28 := by
  refine ⟨by decide, by decide, by decide, by decide, by decide, by decide⟩
